import Mathlib

/-!
Verification of the I2C transport layer of the pn532 crate (src/i2c.rs).

The file shallowly embeds the three interface variants of the source —
`I2CInterface` (status-byte polling), `I2CInterfaceWithIrq` (IRQ pin), and
`AsyncI2cInterface` (suspending loop) — over an abstract bus model.  The bus
is a deterministic state machine answering one transaction request at a
time; every interface operation returns, beside its result and the updated
state, the list of bus transactions it issued, so that claims about "what
goes over the bus" become statements about that trace.
-/

namespace Pn532

/-- Ready sentinel constant of the source: `pub const PN532_I2C_READY: u8 = 0x01`. -/
def PN532_I2C_READY : Nat := 0x01

/-- Fixed device address of the source: `pub const I2C_ADDRESS: u8 = 0x24`. -/
def I2C_ADDRESS : Nat := 0x24

/-- Result of polling once, mirroring `core::task::Poll`. -/
inductive Poll (α : Type) where
  | Ready : α → Poll α
  | Pending : Poll α
deriving DecidableEq, Repr

/-- A single transaction request issued to the I2C bus primitive:
a write of raw bytes to an address, a plain read of a given length,
or a `Transactional::exec` combined transaction, recorded by the list of
lengths of its read operations. -/
inductive BusReq where
  | write : Nat → List Nat → BusReq
  | read : Nat → Nat → BusReq
  | exec : Nat → List Nat → BusReq
deriving DecidableEq, Repr

/-- Number of bytes a successful transaction supplies to the caller. -/
def reqLen : BusReq → Nat
  | .write _ _ => 0
  | .read _ n => n
  | .exec _ lens => lens.sum

/-- One completed bus transaction: the request together with the bus's
response (the bytes supplied on success, or the bus error). -/
structure BusEvent (E : Type) where
  req : BusReq
  resp : Except E (List Nat)
deriving Repr

/-- Abstract model of the bus primitive (`Transactional + Write + Read` in
the synchronous impls, `embedded_hal_async::i2c::I2c` in the asynchronous
one): a deterministic state machine answering one request at a time.  The
well-formedness field is the HAL contract that a successful transaction
fills the caller's buffers completely. -/
structure Bus (S E : Type) where
  step : S → BusReq → Except E (List Nat) × S
  wf : ∀ s req bytes s2, step s req = (Except.ok bytes, s2) → bytes.length = reqLen req

/-- Overwrite the prefix of a caller buffer with the bytes a transaction
supplied, keeping the old contents wherever the supply ran short. -/
def fillBuf (old new : List Nat) : List Nat :=
  new.take old.length ++ old.drop new.length

/-- The status-poll interface struct: owns its bus handle. -/
structure I2CInterface (S : Type) where
  i2c : S

/-- Embeds `I2CInterface::write`: `self.i2c.write(I2C_ADDRESS, frame)`. -/
def I2CInterface.write {S E : Type} (bus : Bus S E) (st : I2CInterface S)
    (frame : List Nat) : Except E Unit × I2CInterface S × List (BusEvent E) :=
  let req := BusReq.write I2C_ADDRESS frame
  let r := bus.step st.i2c req
  ((match r.1 with
    | Except.ok _ => Except.ok ()
    | Except.error e => Except.error e),
   ⟨r.2⟩, [⟨req, r.1⟩])

/-- Embeds `I2CInterface::wait_ready`: a 1-byte read into `buf = [0]`,
then `Ready(Ok(()))` if `buf[0] == PN532_I2C_READY`, else `Pending`;
a bus error propagates via `?` as `Ready(Err(e))`. -/
def I2CInterface.wait_ready {S E : Type} (bus : Bus S E) (st : I2CInterface S) :
    Poll (Except E Unit) × I2CInterface S × List (BusEvent E) :=
  let req := BusReq.read I2C_ADDRESS 1
  let r := bus.step st.i2c req
  ((match r.1 with
    | Except.error e => Poll.Ready (Except.error e)
    | Except.ok bytes =>
        if bytes.headD 0 = PN532_I2C_READY then Poll.Ready (Except.ok ())
        else Poll.Pending),
   ⟨r.2⟩, [⟨req, r.1⟩])

/-- Embeds `I2CInterface::read`: one `exec` transaction
`[Operation::Read(&mut [0]), Operation::Read(buf)]`; the first supplied
byte lands in the local dummy buffer and is discarded, the rest fill `buf`. -/
def I2CInterface.read {S E : Type} (bus : Bus S E) (st : I2CInterface S)
    (buf : List Nat) : Except E (List Nat) × I2CInterface S × List (BusEvent E) :=
  let req := BusReq.exec I2C_ADDRESS [1, buf.length]
  let r := bus.step st.i2c req
  ((match r.1 with
    | Except.error e => Except.error e
    | Except.ok bytes => Except.ok (fillBuf buf (bytes.drop 1))),
   ⟨r.2⟩, [⟨req, r.1⟩])

/-- Mirror of `core::convert::Infallible`: an enum with no variants. -/
inductive Infallible : Type where

/-- The `InputPin` abstraction of `embedded_hal::digital::v2` with
`Error = Infallible`: sampling the pin (`is_low(&self)`) borrows the pin
immutably and yields a level or a (here uninhabited) error. -/
structure InputPin (P : Type) where
  is_low : P → Except Infallible Bool

/-- The `.unwrap()` on the pin sample: total, because the error type has no
inhabitant — this is why the unwrap in the source can never panic. -/
def unwrapInfallible {α : Type} : Except Infallible α → α
  | Except.ok a => a
  | Except.error e => nomatch e

/-- The IRQ-pin interface struct: owns its bus handle and its pin handle. -/
structure I2CInterfaceWithIrq (S P : Type) where
  i2c : S
  irq : P

/-- Embeds `I2CInterfaceWithIrq::write`: identical to the status variant. -/
def I2CInterfaceWithIrq.write {S P E : Type} (bus : Bus S E)
    (st : I2CInterfaceWithIrq S P) (frame : List Nat) :
    Except E Unit × I2CInterfaceWithIrq S P × List (BusEvent E) :=
  let req := BusReq.write I2C_ADDRESS frame
  let r := bus.step st.i2c req
  ((match r.1 with
    | Except.ok _ => Except.ok ()
    | Except.error e => Except.error e),
   ⟨r.2, st.irq⟩, [⟨req, r.1⟩])

/-- Embeds `I2CInterfaceWithIrq::wait_ready`: samples the pin with
`self.irq.is_low().unwrap()`; low yields `Ready(Ok(()))`, high yields
`Pending`.  No bus request is issued. -/
def I2CInterfaceWithIrq.wait_ready {S P : Type} (E : Type) (pin : InputPin P)
    (st : I2CInterfaceWithIrq S P) :
    Poll (Except E Unit) × I2CInterfaceWithIrq S P × List (BusEvent E) :=
  if unwrapInfallible (pin.is_low st.irq) then
    (Poll.Ready (Except.ok ()), st, [])
  else
    (Poll.Pending, st, [])

/-- Embeds `I2CInterfaceWithIrq::read`: identical to the status variant,
one `exec` transaction discarding one byte before filling `buf`. -/
def I2CInterfaceWithIrq.read {S P E : Type} (bus : Bus S E)
    (st : I2CInterfaceWithIrq S P) (buf : List Nat) :
    Except E (List Nat) × I2CInterfaceWithIrq S P × List (BusEvent E) :=
  let req := BusReq.exec I2C_ADDRESS [1, buf.length]
  let r := bus.step st.i2c req
  ((match r.1 with
    | Except.error e => Except.error e
    | Except.ok bytes => Except.ok (fillBuf buf (bytes.drop 1))),
   ⟨r.2, st.irq⟩, [⟨req, r.1⟩])

/-- The asynchronous interface struct: owns its bus handle. -/
structure AsyncI2cInterface (S : Type) where
  i2c : S

/-- Embeds `AsyncI2cInterface::write`: `self.i2c.write(I2C_ADDRESS, frame).await`. -/
def AsyncI2cInterface.write {S E : Type} (bus : Bus S E) (st : AsyncI2cInterface S)
    (frame : List Nat) : Except E Unit × AsyncI2cInterface S × List (BusEvent E) :=
  let req := BusReq.write I2C_ADDRESS frame
  let r := bus.step st.i2c req
  ((match r.1 with
    | Except.ok _ => Except.ok ()
    | Except.error e => Except.error e),
   ⟨r.2⟩, [⟨req, r.1⟩])

/-- Embeds `AsyncI2cInterface::read`: `self.i2c.read(I2C_ADDRESS, buf).await` —
a plain read of `buf.length` bytes, all of which fill `buf`; note, against
sections 3/4.3 of the specification, that no leading byte is discarded. -/
def AsyncI2cInterface.read {S E : Type} (bus : Bus S E) (st : AsyncI2cInterface S)
    (buf : List Nat) : Except E (List Nat) × AsyncI2cInterface S × List (BusEvent E) :=
  let req := BusReq.read I2C_ADDRESS buf.length
  let r := bus.step st.i2c req
  ((match r.1 with
    | Except.error e => Except.error e
    | Except.ok bytes => Except.ok (fillBuf buf bytes)),
   ⟨r.2⟩, [⟨req, r.1⟩])

/-- Embeds the loop body of `AsyncI2cInterface::wait_ready`, with explicit
fuel bounding the number of loop iterations the model runs (the source loop
is unbounded; `none` means the loop had not resolved within the fuel).
The 1-byte buffer is allocated once outside the loop in the source, so the
byte it holds from the previous iteration (`prev`, initially 0) is the
default should a read supply no bytes.  Each iteration: read one byte at
`I2C_ADDRESS`; an error returns it via `?`; the sentinel returns `Ok(())`;
anything else loops. -/
def AsyncI2cInterface.waitReadyAux {S E : Type} (bus : Bus S E) :
    Nat → S → Nat → Option (Except E Unit × S) × List (BusEvent E)
  | 0, _, _ => (none, [])
  | fuel + 1, s, prev =>
    let req := BusReq.read I2C_ADDRESS 1
    let r := bus.step s req
    match r.1 with
    | Except.error e => (some (Except.error e, r.2), [⟨req, r.1⟩])
    | Except.ok bytes =>
      if bytes.headD prev = PN532_I2C_READY then
        (some (Except.ok (), r.2), [⟨req, r.1⟩])
      else
        let rest := AsyncI2cInterface.waitReadyAux bus fuel r.2 (bytes.headD prev)
        (rest.1, ⟨req, r.1⟩ :: rest.2)

/-- Embeds `AsyncI2cInterface::wait_ready`: run the loop with `buf = [0]`. -/
def AsyncI2cInterface.wait_ready {S E : Type} (bus : Bus S E) (fuel : Nat)
    (st : AsyncI2cInterface S) :
    Option (Except E Unit × AsyncI2cInterface S) × List (BusEvent E) :=
  let r := AsyncI2cInterface.waitReadyAux bus fuel st.i2c 0
  ((r.1).map (fun p => (p.1, ⟨p.2⟩)), r.2)

/-- A concrete bus over a trivial state: every transaction succeeds and
supplies the bytes `f 0, f 1, ...` up to the requested length. -/
def patternBus (f : Nat → Nat) : Bus Unit Empty where
  step := fun s req => (Except.ok ((List.range (reqLen req)).map f), s)
  wf := by
    intro s req bytes s2 h
    injection h with h1 h2
    injection h1 with h1
    simp [← h1]

/-- A concrete bus over a counter state: the n-th transaction supplies
bytes all equal to `g n`. -/
def counterBus (g : Nat → Nat) : Bus Nat Empty where
  step := fun n req => (Except.ok (List.replicate (reqLen req) (g n)), n + 1)
  wf := by
    intro s req bytes s2 h
    injection h with h1 h2
    injection h1 with h1
    simp [← h1]

/-- A concrete bus that fails every transaction with error 7. -/
def failBus : Bus Unit Nat where
  step := fun s _ => (Except.error 7, s)
  wf := by
    intro s req bytes s2 h
    injection h with h1 h2
    exact Except.noConfusion h1

/-- The bus of spec scenario C: byte 0 of any transaction is 0xFF, byte i
is i. -/
def scenarioBus : Bus Unit Empty :=
  patternBus (fun i => if i = 0 then 0xFF else i)

/-- Iterate the IRQ variant's wait_ready n times, chaining interface
states and concatenating the bus traces of the calls. -/
def iterWaitReadyIrq {S P : Type} (E : Type) (pin : InputPin P) :
    Nat → I2CInterfaceWithIrq S P → I2CInterfaceWithIrq S P × List (BusEvent E)
  | 0, st => (st, [])
  | n + 1, st =>
    let r := I2CInterfaceWithIrq.wait_ready E pin st
    let rest := iterWaitReadyIrq E pin n r.2.1
    (rest.1, r.2.2 ++ rest.2)

/-! Helper lemmas. -/

/-- Filling a buffer from a supply of exactly its length replaces it. -/
theorem fillBuf_exact (old new : List Nat) (h : new.length = old.length) :
    fillBuf old new = new := by
  unfold fillBuf
  rw [← h, List.take_length, h, List.drop_length, List.append_nil]

/-- The IRQ variant's wait_ready leaves the interface state untouched and
issues no bus transaction, hence so does any iterate of it. -/
theorem iterWaitReadyIrq_id {S P : Type} (E : Type) (pin : InputPin P) :
    ∀ (n : Nat) (st : I2CInterfaceWithIrq S P),
      iterWaitReadyIrq E pin n st = (st, []) := by
  intro n
  induction n with
  | zero => intro st; rfl
  | succ n ih =>
    intro st
    by_cases hb : unwrapInfallible (pin.is_low st.irq) <;>
      simp [iterWaitReadyIrq, I2CInterfaceWithIrq.wait_ready, hb, ih]

/-- Characterization of a resolved run of the asynchronous wait loop: the
trace is a block of non-sentinel status reads followed by one terminal
status read that either observed the sentinel (success) or failed with the
returned error. -/
theorem waitReadyAux_characterization {S E : Type} (bus : Bus S E) :
    ∀ (fuel : Nat) (s : S) (prev : Nat) (res : Except E Unit) (s2 : S)
      (tr : List (BusEvent E)),
      AsyncI2cInterface.waitReadyAux bus fuel s prev = (some (res, s2), tr) →
      ∃ mid last, tr = mid ++ [last] ∧
        (∀ ev ∈ mid, ev.req = BusReq.read I2C_ADDRESS 1 ∧
          ∃ b, ev.resp = Except.ok [b] ∧ b ≠ PN532_I2C_READY) ∧
        last.req = BusReq.read I2C_ADDRESS 1 ∧
        ((res = Except.ok () ∧ last.resp = Except.ok [PN532_I2C_READY]) ∨
         (∃ e, res = Except.error e ∧ last.resp = Except.error e)) := by
  intro fuel
  induction fuel with
  | zero =>
    intro s prev res s2 tr h
    simp [AsyncI2cInterface.waitReadyAux] at h
  | succ n ih =>
    intro s prev res s2 tr h
    rw [AsyncI2cInterface.waitReadyAux] at h
    rcases hstep : bus.step s (BusReq.read I2C_ADDRESS 1) with ⟨resp, snew⟩
    rw [hstep] at h
    cases resp with
    | error e =>
      simp at h
      obtain ⟨⟨hres, -⟩, htr⟩ := h
      refine ⟨[], ⟨BusReq.read I2C_ADDRESS 1, Except.error e⟩, by simp [← htr], by simp,
        rfl, Or.inr ⟨e, hres.symm, rfl⟩⟩
    | ok bytes =>
      have hlen := bus.wf _ _ _ _ hstep
      obtain ⟨b, rfl⟩ := List.length_eq_one.mp hlen
      by_cases hb : b = PN532_I2C_READY
      · subst hb
        simp at h
        obtain ⟨⟨hres, -⟩, htr⟩ := h
        exact ⟨[], ⟨BusReq.read I2C_ADDRESS 1, Except.ok [PN532_I2C_READY]⟩, by simp [← htr],
          by simp, rfl, Or.inl ⟨hres.symm, rfl⟩⟩
      · simp [hb] at h
        obtain ⟨hrest, htr⟩ := h
        obtain ⟨mid, last, hmtr, hmid, hlreq, hlres⟩ :=
          ih snew b res s2 (AsyncI2cInterface.waitReadyAux bus n snew b).2
            (by rw [← hrest])
        refine ⟨⟨BusReq.read I2C_ADDRESS 1, Except.ok [b]⟩ :: mid, last, ?_, ?_, hlreq, hlres⟩
        · rw [← htr, hmtr]; rfl
        · intro ev hev
          rw [List.mem_cons] at hev

          rcases hev with rfl | hev
          · exact ⟨rfl, b, rfl, hb⟩
          · exact hmid ev hev

/-! Claim theorems. -/

/-- C1: every call of the status variant's wait_ready issues exactly one
1-byte bus read at the fixed device address; when that read succeeds, the
single observed byte decides the outcome: equal to 0x01 gives
Ready-success, any other value (0x00 included) gives Pending. -/
theorem wait_ready_status_poll {S E : Type} (bus : Bus S E) (st : I2CInterface S)
    (bytes : List Nat) (s2 : S)
    (h : bus.step st.i2c (BusReq.read I2C_ADDRESS 1) = (Except.ok bytes, s2)) :
    (I2CInterface.wait_ready bus st).2.2 =
      [⟨BusReq.read I2C_ADDRESS 1, Except.ok bytes⟩] ∧
    ∃ b, bytes = [b] ∧
      ((I2CInterface.wait_ready bus st).1 = Poll.Ready (Except.ok ()) ↔
        b = PN532_I2C_READY) ∧
      (b ≠ PN532_I2C_READY → (I2CInterface.wait_ready bus st).1 = Poll.Pending) := by
  have hlen := bus.wf _ _ _ _ h
  obtain ⟨b, rfl⟩ := List.length_eq_one.mp hlen
  refine ⟨by simp [I2CInterface.wait_ready, h], b, rfl, ?_, ?_⟩
  · by_cases hb : b = PN532_I2C_READY <;> simp [I2CInterface.wait_ready, h, hb]
  · intro hb; simp [I2CInterface.wait_ready, h, hb]

/-- C1 witness: a concrete bus supplying the byte 0x01 makes wait_ready
report Ready-success in one read. -/
theorem wait_ready_status_poll_witness :
    (I2CInterface.wait_ready (patternBus fun _ => 1) ⟨()⟩).2.2 =
      [⟨BusReq.read I2C_ADDRESS 1, Except.ok [1]⟩] ∧
    ∃ b, [1] = [b] ∧
      ((I2CInterface.wait_ready (patternBus fun _ => 1) ⟨()⟩).1 =
        Poll.Ready (Except.ok ()) ↔ b = PN532_I2C_READY) ∧
      (b ≠ PN532_I2C_READY →
        (I2CInterface.wait_ready (patternBus fun _ => 1) ⟨()⟩).1 = Poll.Pending) :=
  wait_ready_status_poll (patternBus fun _ => 1) ⟨()⟩ [1] () rfl

/-- C7: when the status read inside the status variant's wait_ready fails
with a bus error e, wait_ready immediately returns Ready carrying exactly
that error, never Pending, having issued just the one failing read. -/
theorem wait_ready_status_error {S E : Type} (bus : Bus S E) (st : I2CInterface S)
    (e : E) (s2 : S)
    (h : bus.step st.i2c (BusReq.read I2C_ADDRESS 1) = (Except.error e, s2)) :
    (I2CInterface.wait_ready bus st).1 = Poll.Ready (Except.error e) ∧
    (I2CInterface.wait_ready bus st).1 ≠ Poll.Pending ∧
    (I2CInterface.wait_ready bus st).2.2 =
      [⟨BusReq.read I2C_ADDRESS 1, Except.error e⟩] := by
  simp [I2CInterface.wait_ready, h]

/-- C7 witness: a concrete always-failing bus. -/
theorem wait_ready_status_error_witness :
    (I2CInterface.wait_ready failBus ⟨()⟩).1 = Poll.Ready (Except.error 7) ∧
    (I2CInterface.wait_ready failBus ⟨()⟩).1 ≠ Poll.Pending ∧
    (I2CInterface.wait_ready failBus ⟨()⟩).2.2 =
      [⟨BusReq.read I2C_ADDRESS 1, Except.error 7⟩] :=
  wait_ready_status_error failBus ⟨()⟩ 7 () rfl

/-- C6: the IRQ variant's wait_ready samples the pin and returns
Ready-success exactly when the sampled level is low (is_low gives true),
and Pending exactly when the level is high. -/
theorem wait_ready_irq_pin {S P E : Type} (pin : InputPin P)
    (st : I2CInterfaceWithIrq S P) :
    ∃ b, pin.is_low st.irq = Except.ok b ∧
      ((I2CInterfaceWithIrq.wait_ready E pin st).1 = Poll.Ready (Except.ok ()) ↔
        b = true) ∧
      ((I2CInterfaceWithIrq.wait_ready E pin st).1 = Poll.Pending ↔ b = false) := by
  rcases hr : pin.is_low st.irq with e | b
  · exact nomatch e
  · refine ⟨b, rfl, ?_, ?_⟩ <;>
      cases b <;> simp [I2CInterfaceWithIrq.wait_ready, unwrapInfallible, hr]

/-- C9: the pin error type is uninhabited, every pin sample is an Ok value
and the unwrap is a total function, so the IRQ variant's wait_ready can
never surface a pin error and a Pending result arises exactly from a
genuinely high pin level, never from a converted read failure. -/
theorem irq_pin_infallible {S P E : Type} (pin : InputPin P)
    (st : I2CInterfaceWithIrq S P) :
    (∀ _err : Infallible, False) ∧
    (∀ r : Except Infallible Bool, ∃ b, r = Except.ok b ∧ unwrapInfallible r = b) ∧
    (∀ e : E, (I2CInterfaceWithIrq.wait_ready E pin st).1 ≠
      Poll.Ready (Except.error e)) ∧
    ((I2CInterfaceWithIrq.wait_ready E pin st).1 = Poll.Pending ↔
      pin.is_low st.irq = Except.ok false) := by
  refine ⟨?_, ?_, ?_, ?_⟩
  · intro err; cases err
  · intro r
    rcases r with e | b
    · exact nomatch e
    · exact ⟨b, rfl, rfl⟩
  · intro e
    by_cases hb : unwrapInfallible (pin.is_low st.irq) <;>
      simp [I2CInterfaceWithIrq.wait_ready, hb]
  · rcases hr : pin.is_low st.irq with e | b
    · exact nomatch e
    · cases b <;> simp [I2CInterfaceWithIrq.wait_ready, unwrapInfallible, hr]

/-- C10: the IRQ variant's wait_ready issues no bus transaction at all,
leaves the whole interface state (the owned i2c handle included)
untouched, never yields a bus error, and any number of iterated calls
still leaves the bus trace empty and the i2c handle unchanged. -/
theorem wait_ready_irq_no_bus_effect {S P E : Type} (pin : InputPin P)
    (st : I2CInterfaceWithIrq S P) (n : Nat) :
    (I2CInterfaceWithIrq.wait_ready E pin st).2.2 = [] ∧
    (I2CInterfaceWithIrq.wait_ready E pin st).2.1 = st ∧
    (∀ e : E, (I2CInterfaceWithIrq.wait_ready E pin st).1 ≠
      Poll.Ready (Except.error e)) ∧
    (iterWaitReadyIrq E pin n st).2 = [] ∧
    (iterWaitReadyIrq E pin n st).1.i2c = st.i2c := by
  have hiter := iterWaitReadyIrq_id E pin n st
  by_cases hb : unwrapInfallible (pin.is_low st.irq) <;>
    simp [I2CInterfaceWithIrq.wait_ready, hb, hiter]

/-- C4: write(F) of each of the three variants forwards the frame F
unmodified to the bus write primitive, issues exactly that one bus write,
and addresses it to the one fixed device address 0x24 shared by all
variants. -/
theorem write_forwards_frame_unmodified {S P E : Type} (bus : Bus S E)
    (st1 : I2CInterface S) (st2 : I2CInterfaceWithIrq S P)
    (st3 : AsyncI2cInterface S) (frame : List Nat) :
    (I2CInterface.write bus st1 frame).2.2 =
      [⟨BusReq.write I2C_ADDRESS frame,
        (bus.step st1.i2c (BusReq.write I2C_ADDRESS frame)).1⟩] ∧
    (I2CInterfaceWithIrq.write bus st2 frame).2.2 =
      [⟨BusReq.write I2C_ADDRESS frame,
        (bus.step st2.i2c (BusReq.write I2C_ADDRESS frame)).1⟩] ∧
    (AsyncI2cInterface.write bus st3 frame).2.2 =
      [⟨BusReq.write I2C_ADDRESS frame,
        (bus.step st3.i2c (BusReq.write I2C_ADDRESS frame)).1⟩] ∧
    I2C_ADDRESS = 0x24 :=
  ⟨rfl, rfl, rfl, rfl⟩

/-- C3: read(buf) of both synchronous variants issues one single combined
exec transaction — a 1-byte discard read followed by a read filling buf —
of 1 + len(buf) bytes in total, and on success hands the caller exactly
the trailing len(buf) bytes of that exchange. -/
theorem read_single_transaction_discards_first {S P E : Type} (bus : Bus S E)
    (st : I2CInterfaceWithIrq S P) (buf bytes : List Nat) (s2 : S)
    (h : bus.step st.i2c (BusReq.exec I2C_ADDRESS [1, buf.length]) =
      (Except.ok bytes, s2)) :
    (I2CInterface.read bus ⟨st.i2c⟩ buf).2.2 =
      [⟨BusReq.exec I2C_ADDRESS [1, buf.length], Except.ok bytes⟩] ∧
    (I2CInterfaceWithIrq.read bus st buf).2.2 =
      [⟨BusReq.exec I2C_ADDRESS [1, buf.length], Except.ok bytes⟩] ∧
    bytes.length = 1 + buf.length ∧
    (I2CInterface.read bus ⟨st.i2c⟩ buf).1 = Except.ok (bytes.drop 1) ∧
    (I2CInterfaceWithIrq.read bus st buf).1 = Except.ok (bytes.drop 1) ∧
    (bytes.drop 1).length = buf.length := by
  have hlen := bus.wf _ _ _ _ h
  simp [reqLen] at hlen
  have hdrop : (bytes.drop 1).length = buf.length := by
    rw [List.length_drop, hlen]; omega
  have htail : bytes.tail.length = buf.length := by
    rw [List.length_tail, hlen]; omega
  refine ⟨by simp [I2CInterface.read, h], by simp [I2CInterfaceWithIrq.read, h],
    by omega, ?_, ?_, hdrop⟩ <;>
    simp [I2CInterface.read, I2CInterfaceWithIrq.read, h, fillBuf_exact _ _ htail]

/-- C3 witness: spec scenario C, a 4-byte buffer and the 5-byte exchange
0xFF 0x01 0x02 0x03 0x04; the caller receives 0x01 0x02 0x03 0x04. -/
theorem read_single_transaction_discards_first_witness :
    (I2CInterface.read scenarioBus ⟨()⟩ [0, 0, 0, 0]).1 = Except.ok [1, 2, 3, 4] ∧
    (I2CInterfaceWithIrq.read scenarioBus ⟨(), true⟩ [0, 0, 0, 0]).1 =
      Except.ok [1, 2, 3, 4] ∧
    (I2CInterface.read scenarioBus ⟨()⟩ [0, 0, 0, 0]).2.2 =
      [⟨BusReq.exec I2C_ADDRESS [1, 4], Except.ok [0xFF, 1, 2, 3, 4]⟩] := by
  obtain ⟨h1, h2, h3, h4, h5, h6⟩ :=
    read_single_transaction_discards_first scenarioBus
      (⟨(), true⟩ : I2CInterfaceWithIrq Unit Bool) [0, 0, 0, 0] [0xFF, 1, 2, 3, 4] () rfl
  exact ⟨h4, h5, h1⟩

/-- C2 evidence: at a 4-byte buffer, the asynchronous read issues a single
plain 4-byte bus read — length len(buf), not 1 + len(buf) — and returns
all four supplied bytes to the caller, the leading 0xFF included: no
framing byte is discarded, contrary to the claimed identical semantics
with the synchronous variants. -/
theorem async_read_does_not_discard :
    (AsyncI2cInterface.read scenarioBus ⟨()⟩ [0, 0, 0, 0]).2.2 =
      [⟨BusReq.read I2C_ADDRESS 4, Except.ok [0xFF, 1, 2, 3]⟩] ∧
    (AsyncI2cInterface.read scenarioBus ⟨()⟩ [0, 0, 0, 0]).1 =
      Except.ok [0xFF, 1, 2, 3] ∧
    reqLen (BusReq.read I2C_ADDRESS 4) = 4 ∧
    BusReq.read I2C_ADDRESS 4 ≠ BusReq.exec I2C_ADDRESS [1, 4] := by
  refine ⟨rfl, rfl, rfl, by simp⟩

/-- C2, amended to match the code: the asynchronous read issues exactly
one plain bus read of len(buf) bytes at the fixed device address and on
success returns all len(buf) supplied bytes to the caller unchanged,
discarding nothing. -/
theorem async_read_plain {S E : Type} (bus : Bus S E) (st : AsyncI2cInterface S)
    (buf bytes : List Nat) (s2 : S)
    (h : bus.step st.i2c (BusReq.read I2C_ADDRESS buf.length) =
      (Except.ok bytes, s2)) :
    (AsyncI2cInterface.read bus st buf).2.2 =
      [⟨BusReq.read I2C_ADDRESS buf.length, Except.ok bytes⟩] ∧
    bytes.length = buf.length ∧
    (AsyncI2cInterface.read bus st buf).1 = Except.ok bytes := by
  have hlen := bus.wf _ _ _ _ h
  simp [reqLen] at hlen
  exact ⟨by simp [AsyncI2cInterface.read, h], hlen,
    by simp [AsyncI2cInterface.read, h, fillBuf_exact _ _ hlen]⟩

/-- C2 amended-claim witness: the concrete 4-byte run. -/
theorem async_read_plain_witness :
    (AsyncI2cInterface.read scenarioBus ⟨()⟩ [5, 5, 5, 5]).2.2 =
      [⟨BusReq.read I2C_ADDRESS 4, Except.ok [0xFF, 1, 2, 3]⟩] ∧
    ([0xFF, 1, 2, 3] : List Nat).length = ([5, 5, 5, 5] : List Nat).length ∧
    (AsyncI2cInterface.read scenarioBus ⟨()⟩ [5, 5, 5, 5]).1 =
      Except.ok [0xFF, 1, 2, 3] :=
  async_read_plain scenarioBus ⟨()⟩ [5, 5, 5, 5] [0xFF, 1, 2, 3] () rfl

/-- C8: identity propagation of bus errors: for every variant and every
operation among write, wait_ready and read, the operation surfaces an
error e exactly when the one bus transaction it issued failed with that
same e, unchanged; for the asynchronous wait loop the returned error is
the error of its terminal bus read. -/
theorem bus_error_identity_propagation {S P E : Type} (bus : Bus S E)
    (st1 : I2CInterface S) (st2 : I2CInterfaceWithIrq S P)
    (st3 : AsyncI2cInterface S) (frame buf : List Nat) (e : E) :
    ((I2CInterface.write bus st1 frame).1 = Except.error e ↔
      (bus.step st1.i2c (BusReq.write I2C_ADDRESS frame)).1 = Except.error e) ∧
    ((I2CInterface.wait_ready bus st1).1 = Poll.Ready (Except.error e) ↔
      (bus.step st1.i2c (BusReq.read I2C_ADDRESS 1)).1 = Except.error e) ∧
    ((I2CInterface.read bus st1 buf).1 = Except.error e ↔
      (bus.step st1.i2c (BusReq.exec I2C_ADDRESS [1, buf.length])).1 =
        Except.error e) ∧
    ((I2CInterfaceWithIrq.write bus st2 frame).1 = Except.error e ↔
      (bus.step st2.i2c (BusReq.write I2C_ADDRESS frame)).1 = Except.error e) ∧
    ((I2CInterfaceWithIrq.read bus st2 buf).1 = Except.error e ↔
      (bus.step st2.i2c (BusReq.exec I2C_ADDRESS [1, buf.length])).1 =
        Except.error e) ∧
    ((AsyncI2cInterface.write bus st3 frame).1 = Except.error e ↔
      (bus.step st3.i2c (BusReq.write I2C_ADDRESS frame)).1 = Except.error e) ∧
    ((AsyncI2cInterface.read bus st3 buf).1 = Except.error e ↔
      (bus.step st3.i2c (BusReq.read I2C_ADDRESS buf.length)).1 =
        Except.error e) ∧
    (∀ fuel st4 tr,
      AsyncI2cInterface.wait_ready bus fuel st3 = (some (Except.error e, st4), tr) →
      ∃ mid last, tr = mid ++ [last] ∧ last.resp = Except.error e) := by
  refine ⟨?_, ?_, ?_, ?_, ?_, ?_, ?_, ?_⟩
  · rcases hstep : (bus.step st1.i2c (BusReq.write I2C_ADDRESS frame)).1 with e2 | v <;>
      simp [I2CInterface.write, hstep]
  · rcases hstep : (bus.step st1.i2c (BusReq.read I2C_ADDRESS 1)).1 with e2 | v <;>
      simp [I2CInterface.wait_ready, hstep]
    split <;> simp
  · rcases hstep : (bus.step st1.i2c (BusReq.exec I2C_ADDRESS [1, buf.length])).1
      with e2 | v <;> simp [I2CInterface.read, hstep]
  · rcases hstep : (bus.step st2.i2c (BusReq.write I2C_ADDRESS frame)).1 with e2 | v <;>
      simp [I2CInterfaceWithIrq.write, hstep]
  · rcases hstep : (bus.step st2.i2c (BusReq.exec I2C_ADDRESS [1, buf.length])).1
      with e2 | v <;> simp [I2CInterfaceWithIrq.read, hstep]
  · rcases hstep : (bus.step st3.i2c (BusReq.write I2C_ADDRESS frame)).1 with e2 | v <;>
      simp [AsyncI2cInterface.write, hstep]
  · rcases hstep : (bus.step st3.i2c (BusReq.read I2C_ADDRESS buf.length)).1
      with e2 | v <;> simp [AsyncI2cInterface.read, hstep]
  · intro fuel st4 tr h
    rw [AsyncI2cInterface.wait_ready] at h
    rcases haux : (AsyncI2cInterface.waitReadyAux bus fuel st3.i2c 0).1 with - | p
    · rw [haux] at h; simp at h
    · rw [haux] at h
      simp at h
      obtain ⟨⟨hres, -⟩, htr⟩ := h
      obtain ⟨mid, last, hmtr, -, -, hlres⟩ :=
        waitReadyAux_characterization bus fuel st3.i2c 0 p.1 p.2
          (AsyncI2cInterface.waitReadyAux bus fuel st3.i2c 0).2 (by rw [← haux])
      rcases hlres with ⟨hok, -⟩ | ⟨e2, herr, hlresp⟩
      · rw [hok] at hres; exact absurd hres.symm (by simp)
      · rw [herr] at hres
        refine ⟨mid, last, by rw [← htr, hmtr], ?_⟩
        rw [hlresp]
        have heq : e2 = e := by injection hres
        rw [heq]

/-- C8 witness: the always-failing bus propagates its error 7 unchanged
through each operation. -/
theorem bus_error_identity_propagation_witness :
    (I2CInterface.write failBus ⟨()⟩ [5]).1 = Except.error 7 ∧
    (I2CInterface.wait_ready failBus ⟨()⟩).1 = Poll.Ready (Except.error 7) ∧
    (I2CInterface.read failBus ⟨()⟩ [0, 0]).1 = Except.error 7 ∧
    (I2CInterfaceWithIrq.write failBus ⟨(), true⟩ [5]).1 = Except.error 7 ∧
    (I2CInterfaceWithIrq.read failBus ⟨(), true⟩ [0, 0]).1 = Except.error 7 ∧
    (AsyncI2cInterface.write failBus ⟨()⟩ [5]).1 = Except.error 7 ∧
    (AsyncI2cInterface.read failBus ⟨()⟩ [0, 0]).1 = Except.error 7 := by
  have h := bus_error_identity_propagation failBus (⟨()⟩ : I2CInterface Unit)
    (⟨(), true⟩ : I2CInterfaceWithIrq Unit Bool) (⟨()⟩ : AsyncI2cInterface Unit)
    [5] [0, 0] 7
  exact ⟨h.1.mpr rfl, h.2.1.mpr rfl, h.2.2.1.mpr rfl, h.2.2.2.1.mpr rfl,
    h.2.2.2.2.1.mpr rfl, h.2.2.2.2.2.1.mpr rfl, h.2.2.2.2.2.2.1.mpr rfl⟩

/-- C5: whenever the asynchronous wait_ready resolves, it has issued at
least one bus request, every request it issued was a 1-byte status read at
the fixed device address (no other operation, hence no delay-injecting
bus activity), a success outcome means the last read observed the 0x01
sentinel, and an error outcome carries exactly the error of the last read
while every earlier read succeeded with a non-sentinel byte — so the
error returned is the first bus error encountered. -/
theorem async_wait_ready_sentinel_or_error {S E : Type} (bus : Bus S E)
    (fuel : Nat) (st : AsyncI2cInterface S) (res : Except E Unit)
    (st2 : AsyncI2cInterface S) (tr : List (BusEvent E))
    (h : AsyncI2cInterface.wait_ready bus fuel st = (some (res, st2), tr)) :
    tr ≠ [] ∧
    (∀ ev ∈ tr, ev.req = BusReq.read I2C_ADDRESS 1) ∧
    ∃ mid last, tr = mid ++ [last] ∧
      (∀ ev ∈ mid, ∃ b, ev.resp = Except.ok [b] ∧ b ≠ PN532_I2C_READY) ∧
      ((res = Except.ok () ∧ last.resp = Except.ok [PN532_I2C_READY]) ∨
       (∃ e, res = Except.error e ∧ last.resp = Except.error e)) := by
  rw [AsyncI2cInterface.wait_ready] at h
  rcases haux : (AsyncI2cInterface.waitReadyAux bus fuel st.i2c 0).1 with - | p
  · rw [haux] at h; simp at h
  · rw [haux] at h
    simp at h
    obtain ⟨⟨hres, -⟩, htr⟩ := h
    obtain ⟨mid, last, hmtr, hmid, hlreq, hlres⟩ :=
      waitReadyAux_characterization bus fuel st.i2c 0 p.1 p.2
        (AsyncI2cInterface.waitReadyAux bus fuel st.i2c 0).2 (by rw [← haux])
    rw [← htr, hmtr]
    rw [← hres]
    refine ⟨by simp, ?_, mid, last, rfl, fun ev hev => (hmid ev hev).2, ?_⟩
    · intro ev hev
      rw [List.mem_append] at hev
      rcases hev with hev | hev
      · exact (hmid ev hev).1
      · rw [List.mem_singleton] at hev
        rw [hev]
        exact hlreq
    · exact hlres

/-- C5 witness: a bus not ready on the first read (byte 0x00) and ready on
the second (byte 0x01); the loop resolves successfully after two reads. -/
theorem async_wait_ready_sentinel_or_error_witness :
    ([⟨BusReq.read I2C_ADDRESS 1, Except.ok [0]⟩,
      ⟨BusReq.read I2C_ADDRESS 1, Except.ok [1]⟩] : List (BusEvent Empty)) ≠ [] ∧
    (∀ ev ∈ ([⟨BusReq.read I2C_ADDRESS 1, Except.ok [0]⟩,
      ⟨BusReq.read I2C_ADDRESS 1, Except.ok [1]⟩] : List (BusEvent Empty)),
      ev.req = BusReq.read I2C_ADDRESS 1) ∧
    ∃ mid last,
      ([⟨BusReq.read I2C_ADDRESS 1, Except.ok [0]⟩,
        ⟨BusReq.read I2C_ADDRESS 1, Except.ok [1]⟩] : List (BusEvent Empty)) =
        mid ++ [last] ∧
      (∀ ev ∈ mid, ∃ b, ev.resp = Except.ok [b] ∧ b ≠ PN532_I2C_READY) ∧
      ((Except.ok () = (Except.ok () : Except Empty Unit) ∧
        last.resp = Except.ok [PN532_I2C_READY]) ∨
       (∃ e, (Except.ok () : Except Empty Unit) = Except.error e ∧
        last.resp = Except.error e)) := by
  have h := async_wait_ready_sentinel_or_error (counterBus fun n => n) 3 ⟨0⟩
    (Except.ok ()) ⟨2⟩
    [⟨BusReq.read I2C_ADDRESS 1, Except.ok [0]⟩,
     ⟨BusReq.read I2C_ADDRESS 1, Except.ok [1]⟩] rfl
  exact ⟨h.1, h.2.1, h.2.2⟩

end Pn532
